import Mathlib

/-!
Verification of the mindpulse real-time HRV pipeline against its
natural-language specification.  The Python sources are shallowly embedded:
numpy float arrays become `List ℚ`, boolean masks become `List Bool`,
stateful objects become explicit state records, and the wall clock becomes
an explicit parameter.  Machine floats are modelled by exact rationals;
numpy's unguarded division (which yields inf/nan rather than raising) is
modelled both totally (`ratioExceeds`, matching the inf/nan comparison
semantics) and partially (`ratioExceedsChecked`, exposing the
division-by-zero point).
-/

namespace MindPulse

/-- Configuration mirroring `app/config/settings.py` `SignalConfig`
(window sizes in seconds, PPI bounds in milliseconds). -/
structure SignalConfig where
  window_size_sec : ℚ
  window_step_sec : ℚ
  min_ppi_ms : ℚ
  max_ppi_ms : ℚ
  max_ppi_diff_ratio : ℚ
  min_quality_ratio : ℚ
deriving Repr, DecidableEq

/-- Result record of `PPICleaner.clean` (`app/signal/ppi_cleaning.py`). -/
structure CleanedPPI where
  timestamps : List ℚ
  intervals_ms : List ℚ
  mask_valid : List Bool
  quality_ratio : ℚ
  n_original : ℕ
  n_removed : ℕ
deriving Repr, DecidableEq

/-- numpy semantics of `|d| / p > r` as used on line 54 of
`ppi_cleaning.py`: division by zero does not raise; `|d|/0` is `inf` when
`d ≠ 0` (compares greater than any finite `r`) and `nan` when `d = 0`
(all comparisons false). -/
def ratioExceeds (d p r : ℚ) : Bool :=
  if p = 0 then decide (d ≠ 0) else decide (|d| / p > r)

/-- Step 1 of `clean`: physiological range filter
`(ppi >= min_ppi_ms) & (ppi <= max_ppi_ms)`. -/
def rangeMask (cfg : SignalConfig) (ppi : List ℚ) : List Bool :=
  ppi.map (fun p => decide (cfg.min_ppi_ms ≤ p) && decide (p ≤ cfg.max_ppi_ms))

/-- Whether `diff_ratio[j] > max_ppi_diff_ratio`, i.e. index `j` is in
`bad_indices` of the successive-difference filter. -/
def badAt (cfg : SignalConfig) (ppi : List ℚ) (j : ℕ) : Bool :=
  if j + 1 < ppi.length then
    ratioExceeds (ppi.getD (j + 1) 0 - ppi.getD j 0) (ppi.getD j 0)
      cfg.max_ppi_diff_ratio
  else false

/-- Step 2 of `clean`: the successive-difference mask.  The loop sets
`succ_mask[idx] = succ_mask[idx+1] = False` for each bad index, so entry
`i` survives iff neither `i` nor `i - 1` is bad. -/
def succMask (cfg : SignalConfig) (ppi : List ℚ) : List Bool :=
  (List.range ppi.length).map
    (fun i => !badAt cfg ppi i && !(decide (0 < i) && badAt cfg ppi (i - 1)))

/-- The combined validity mask of `clean`; the successive-difference step
only runs when `len(ppi) > 1`. -/
def maskValid (cfg : SignalConfig) (ppi : List ℚ) : List Bool :=
  if 1 < ppi.length then
    List.zipWith (· && ·) (rangeMask cfg ppi) (succMask cfg ppi)
  else rangeMask cfg ppi

/-- `PPICleaner.clean` (`app/signal/ppi_cleaning.py`, lines 32-81). -/
def clean (cfg : SignalConfig) (ppi_ms : List ℚ) (timestamps : List ℚ) :
    CleanedPPI :=
  if ppi_ms = [] then
    { timestamps := [], intervals_ms := [], mask_valid := []
      quality_ratio := 0, n_original := 0, n_removed := 0 }
  else
    let n := ppi_ms.length
    let mask := maskValid cfg ppi_ms
    let nValid := mask.count true
    { timestamps := timestamps, intervals_ms := ppi_ms, mask_valid := mask
      quality_ratio := (nValid : ℚ) / (n : ℚ)
      n_original := n, n_removed := n - nValid }

/-- The division of the successive-difference filter with the zero divisor
made explicit: `none` exactly when the unguarded `|d| / p` divides by 0. -/
def ratioExceedsChecked (d p r : ℚ) : Option Bool :=
  if p = 0 then none else some (decide (|d| / p > r))

/-- `badAt` through the checked division. -/
def badAtChecked (cfg : SignalConfig) (ppi : List ℚ) (j : ℕ) : Option Bool :=
  if j + 1 < ppi.length then
    ratioExceedsChecked (ppi.getD (j + 1) 0 - ppi.getD j 0) (ppi.getD j 0)
      cfg.max_ppi_diff_ratio
  else some false

/-- `clean` with every division of the successive-difference filter
checked: `none` as soon as one of the `N - 1` divisors `ppi[i]` is zero,
otherwise `some` of the total embedding's result. -/
def cleanChecked (cfg : SignalConfig) (ppi_ms : List ℚ)
    (timestamps : List ℚ) : Option CleanedPPI :=
  if ppi_ms = [] then some (clean cfg ppi_ms timestamps)
  else if 1 < ppi_ms.length then
    if (List.range ppi_ms.length).all
        (fun j => (badAtChecked cfg ppi_ms j).isSome) then
      some (clean cfg ppi_ms timestamps)
    else none
  else some (clean cfg ppi_ms timestamps)

/-- The valid points `(index, value)` used by `PPICleaner.interpolate`:
`valid_idx = np.where(mask)[0]` paired with `intervals_ms[valid_idx]`. -/
def validPoints (cleaned : CleanedPPI) : List (ℚ × ℚ) :=
  ((List.range cleaned.intervals_ms.length).filter
      (fun i => cleaned.mask_valid.getD i false)).map
    (fun (i : ℕ) => ((i : ℚ), cleaned.intervals_ms.getD i 0))

/-- `np.interp` over a strictly increasing abscissa list: piecewise-linear
interpolation with constant extension beyond the first and last point. -/
def npInterp (x : ℚ) : List (ℚ × ℚ) → ℚ
  | [] => 0
  | [(_, y1)] => y1
  | (x1, y1) :: (x2, y2) :: rest =>
    if x ≤ x1 then y1
    else if x ≤ x2 then y1 + (y2 - y1) * (x - x1) / (x2 - x1)
    else npInterp x ((x2, y2) :: rest)

/-- `PPICleaner.interpolate` (`app/signal/ppi_cleaning.py`, lines 83-98):
copy the intervals and overwrite the invalid indices with
`np.interp(invalid_idx, valid_idx, intervals[valid_idx])`. -/
def interpolate (cleaned : CleanedPPI) : List ℚ :=
  if cleaned.n_original = 0 ∨ cleaned.mask_valid.all (· = true) then
    cleaned.intervals_ms
  else if (validPoints cleaned).length < 2 then cleaned.intervals_ms
  else
    (List.range cleaned.intervals_ms.length).map
      (fun i =>
        if cleaned.mask_valid.getD i false then cleaned.intervals_ms.getD i 0
        else npInterp (i : ℚ) (validPoints cleaned))

/-! ## Sliding window (`app/signal/windowing.py`) -/

/-- One buffered `_Sample`: `(timestamp, ppi_ms)`. -/
structure WSample where
  timestamp : ℚ
  ppi_ms : ℚ
deriving Repr, DecidableEq

/-- `WindowData` snapshot emitted by `SlidingWindow._try_emit`. -/
structure WindowData where
  ppi_ms : List ℚ
  timestamps : List ℚ
  window_start : ℚ
  window_end : ℚ
  sample_count : ℕ
deriving Repr, DecidableEq

/-- Mutable state of `SlidingWindow`: the deque plus `_last_emit_time`. -/
structure SWState where
  buffer : List WSample
  last_emit_time : ℚ
deriving Repr, DecidableEq

/-- Fresh `SlidingWindow` state. -/
def SWState.init : SWState := { buffer := [], last_emit_time := 0 }

/-- The timestamp-reconstruction loop of `add_samples` run on the reversed
batch: walking backward from `t`, pairing each interval with the running
time and subtracting the interval in seconds. Produces the newest-first
`batch` list. -/
def reconRev : List ℚ → ℚ → List WSample
  | [], _ => []
  | p :: rest, t => ⟨t, p⟩ :: reconRev rest (t - p / 1000)

/-- `SlidingWindow._evict_old`: drop from the head while
`head.timestamp < tail.timestamp - window_size_sec`. -/
def evictOld (cfg : SignalConfig) (buffer : List WSample) : List WSample :=
  match buffer.getLast? with
  | none => buffer
  | some last =>
    buffer.dropWhile (fun s => s.timestamp < last.timestamp - cfg.window_size_sec)

/-- `SlidingWindow._try_emit` with the call to `time.time()` made an
explicit `now` argument.  Returns the new state and the emitted window,
if any. -/
def tryEmit (cfg : SignalConfig) (st : SWState) (now : ℚ) :
    SWState × Option WindowData :=
  if now - st.last_emit_time < cfg.window_step_sec then (st, none)
  else
    match h : st.buffer with
    | [] => (st, none)
    | f :: rest =>
      let last := (f :: rest).getLast (by simp)
      let span := last.timestamp - f.timestamp
      let minFill : ℚ := if st.last_emit_time = 0 then 33 / 100 else 3 / 5
      if span < cfg.window_size_sec * minFill then (st, none)
      else
        ({ buffer := st.buffer, last_emit_time := now },
          some { ppi_ms := st.buffer.map (·.ppi_ms)
                 timestamps := st.buffer.map (·.timestamp)
                 window_start := f.timestamp
                 window_end := last.timestamp
                 sample_count := st.buffer.length })

/-- `SlidingWindow.add_samples` (lines 46-67): reconstruct timestamps
backward from `timestamp`, append oldest-first, evict, then try to emit
at wall-clock `now`. -/
def addSamples (cfg : SignalConfig) (st : SWState) (ppi_ms : List ℚ)
    (timestamp : ℚ) (now : ℚ) : SWState × Option WindowData :=
  let inserted := (reconRev ppi_ms.reverse timestamp).reverse
  let buf := evictOld cfg (st.buffer ++ inserted)
  tryEmit cfg { st with buffer := buf } now

/-- A whole run of `add_samples` calls; each trace entry is
`(ppi batch, batch timestamp, wall clock at the call)`.  Returns the final
state together with the wall-clock times of all emissions. -/
def runWindow (cfg : SignalConfig) :
    SWState → List (List ℚ × ℚ × ℚ) → SWState × List ℚ
  | st, [] => (st, [])
  | st, (ppi, ts, now) :: rest =>
    let (st', emitted) := addSamples cfg st ppi ts now
    let (stFin, times) := runWindow cfg st' rest
    (stFin, (match emitted with | none => [] | some _ => [now]) ++ times)

/-! ## Polar BLE client (`app/acquisition/polar_client.py`) -/

/-- `ConnectionState` enum. -/
inductive ConnectionState where
  | disconnected | scanning | connecting | connected | streaming | error
deriving Repr, DecidableEq

/-- Logging levels used by the client. -/
inductive LogLevel where
  | debug | info | warning | error
deriving Repr, DecidableEq

/-- The client state the control/data handlers can observe or change:
connection phase, the `_pmd_streaming` and `_running` flags, whether the
underlying transport is connected, and the log record. -/
structure PolarClientState where
  connection_state : ConnectionState
  pmd_streaming : Bool
  running : Bool
  connected : Bool
  log : List (LogLevel × String)
deriving Repr, DecidableEq

/-- A parsed PPI data sample `(ppi_ms, error_ms, skin_contact)`. -/
structure PmdSample where
  ppi : ℕ
  err : ℕ
  skin_contact : Bool
deriving Repr, DecidableEq

/-- The `PolarSample` handed to the registered callback by a data frame. -/
structure PpiBatch where
  ppi_ms : List ℕ
  ppi_errors_ms : List ℕ
  rr_quality : List Bool
deriving Repr, DecidableEq

/-- `PolarClient.start_streaming` (lines 159-186): raises when not
connected; otherwise sets `_running`, enters `STREAMING`, subscribes and
writes the START command, then sets `_pmd_streaming = True`.  Note the
state is entered before any command response arrives. -/
def startStreaming (st : PolarClientState) : Option PolarClientState :=
  if !st.connected then none
  else some
    { st with
      running := true
      connection_state := ConnectionState.streaming
      pmd_streaming := true
      log := st.log ++
        [(LogLevel.info, "HR notifications started"),
         (LogLevel.info, "PMD subscriptions active"),
         (LogLevel.info, "PPI streaming started via PMD SDK")] }

/-- `PolarClient._handle_pmd_control` (lines 255-266): on a well-formed
response (length ≥ 4, first byte 0xF0) log the status at info level and,
when the echoed command is START (0x02) with non-zero status, add an
error-level log entry.  No state field other than the log changes. -/
def handlePmdControl (st : PolarClientState) (data : List ℕ) :
    PolarClientState :=
  if 4 ≤ data.length ∧ data.getD 0 0 = 0xF0 then
    let cmd := data.getD 1 0
    let status := data.getD 3 0
    let st1 := { st with log := st.log ++ [(LogLevel.info, "PMD response")] }
    if cmd = 0x02 ∧ status ≠ 0 then
      { st1 with log := st1.log ++
          [(LogLevel.error, "PMD START PPI failed")] }
    else st1
  else st

/-- The 6-byte sample loop of `_handle_pmd_data`: consume complete 6-byte
samples, decoding PPI and error as uint16 LE and skin contact as bit 0 of
the flags byte. -/
def parsePmdSamples : List ℕ → List PmdSample
  | _hr :: p0 :: p1 :: e0 :: e1 :: fl :: rest =>
    ⟨p0 + 256 * p1, e0 + 256 * e1, fl % 2 = 1⟩ :: parsePmdSamples rest
  | _ => []

/-- `PolarClient._handle_pmd_data` (lines 268-311): drop frames shorter
than 16 bytes or whose measurement-type byte is not 0x03, otherwise parse
the samples after the 10-byte header and deliver them; `none` means the
callback is not invoked. -/
def handlePmdData (data : List ℕ) : Option PpiBatch :=
  if data.length < 16 then none
  else if data.getD 0 0 ≠ 0x03 then none
  else
    let samples := parsePmdSamples (data.drop 10)
    if samples = [] then none
    else some { ppi_ms := samples.map (·.ppi)
                ppi_errors_ms := samples.map (·.err)
                rr_quality := samples.map (·.skin_contact) }

/-! ## Cognitive model and smoothing (`app/ml/model.py`, `app/ml/inference.py`) -/

/-- `np.clip(x, lo, hi)`. -/
def npClip (x lo hi : ℚ) : ℚ := min (max x lo) hi

/-- `CognitiveScores` triplet (the timestamp field is set separately). -/
structure CognitiveScores where
  stress : ℚ
  cognitive_load : ℚ
  fatigue : ℚ
  timestamp : ℚ
deriving Repr, DecidableEq

/-- `CognitiveModel._heuristic_predict` (lines 85-124).  The feature
vector order is `[mean_hr, mean_rr, sdnn, rmssd, pnn50, sdsd, cv_rr,
lf_power, hf_power, lf_hf_ratio, total_power, sd1, sd2, sd_ratio]`. -/
def heuristicPredict (features : List ℚ) : CognitiveScores :=
  let mean_hr := features.getD 0 0
  let sdnn := features.getD 2 0
  let rmssd := features.getD 3 0
  let pnn50 := features.getD 4 0
  let lf_hf := features.getD 9 0
  let sd1 := features.getD 11 0
  let stress_lf := npClip ((lf_hf - 1 / 2) / 4 * 100) 0 100
  let stress_rmssd := npClip ((1 - rmssd / 80) * 100) 0 100
  let stress_hr := npClip ((mean_hr - 60) / 50 * 60) 0 100
  let stress := 2 / 5 * stress_lf + 2 / 5 * stress_rmssd + 1 / 5 * stress_hr
  let load_sdnn := npClip ((1 - sdnn / 100) * 100) 0 100
  let load_hr := npClip ((mean_hr - 55) / 55 * 80) 0 100
  let load_sd1 := npClip ((1 - sd1 / 50) * 100) 0 100
  let cognitive_load :=
    7 / 20 * load_sdnn + 7 / 20 * load_hr + 3 / 10 * load_sd1
  let fatigue_rmssd := npClip ((1 - rmssd / 60) * 80) 0 100
  let fatigue_pnn50 := npClip ((1 - pnn50 / 30) * 80) 0 100
  let fatigue_hr := npClip ((mean_hr - 65) / 40 * 50) 0 100
  let fatigue :=
    2 / 5 * fatigue_rmssd + 7 / 20 * fatigue_pnn50 + 1 / 4 * fatigue_hr
  { stress := npClip stress 0 100
    cognitive_load := npClip cognitive_load 0 100
    fatigue := npClip fatigue 0 100
    timestamp := 0 }

/-- The clamp of `CognitiveModel._model_predict` (line 75): the trained
model's raw 3-tuple output clipped to `[0, 100]` componentwise. -/
def modelPredictClip (predictions : List ℚ) : CognitiveScores :=
  { stress := npClip (predictions.getD 0 0) 0 100
    cognitive_load := npClip (predictions.getD 1 0) 0 100
    fatigue := npClip (predictions.getD 2 0) 0 100
    timestamp := 0 }

/-- One step of `CognitiveInference._smooth` (lines 105-118): first
output passes through unchanged, afterwards
`out = α·raw + (1-α)·prev`; returns the output, which also becomes the
new `_prev_scores`. -/
def smoothStep (alpha : ℚ) (prev : Option CognitiveScores)
    (raw : CognitiveScores) : CognitiveScores :=
  match prev with
  | none => raw
  | some p =>
    { stress := alpha * raw.stress + (1 - alpha) * p.stress
      cognitive_load :=
        alpha * raw.cognitive_load + (1 - alpha) * p.cognitive_load
      fatigue := alpha * raw.fatigue + (1 - alpha) * p.fatigue
      timestamp := raw.timestamp }

/-- `_smooth` applied along a whole run of raw score outputs, starting
from smoothing state `prev`; returns every smoothed output in order. -/
def smoothTrace (alpha : ℚ) (prev : Option CognitiveScores) :
    List CognitiveScores → List CognitiveScores
  | [] => []
  | raw :: rest =>
    let out := smoothStep alpha prev raw
    out :: smoothTrace alpha (some out) rest

/-- All three score components lie in `[0, 100]`. -/
def ScoresInRange (s : CognitiveScores) : Prop :=
  0 ≤ s.stress ∧ s.stress ≤ 100 ∧
  0 ≤ s.cognitive_load ∧ s.cognitive_load ≤ 100 ∧
  0 ≤ s.fatigue ∧ s.fatigue ≤ 100

/-! ## Realtime pipeline (`app/domain/pipeline.py`) -/

/-- `HRVFeatures` (`app/features/hrv_features.py`). -/
structure HRVFeatures where
  mean_hr : ℚ
  mean_rr : ℚ
  sdnn : ℚ
  rmssd : ℚ
  pnn50 : ℚ
  sdsd : ℚ
  cv_rr : ℚ
  lf_power : ℚ
  hf_power : ℚ
  lf_hf_ratio : ℚ
  total_power : ℚ
  sd1 : ℚ
  sd2 : ℚ
  sd_ratio : ℚ
  quality_ratio : ℚ
  sample_count : ℕ
deriving Repr, DecidableEq

/-- `FatigueTrend` (`app/ml/inference.py`). -/
structure FatigueTrend where
  slope : ℚ
  predicted_fatigue_10min : ℚ
  confidence : ℚ
deriving Repr, DecidableEq

/-- `InferenceResult` (`app/ml/inference.py`). -/
structure InferenceResult where
  scores : CognitiveScores
  features : HRVFeatures
  fatigue_trend : FatigueTrend
  timestamp : ℚ
  window_quality : ℚ
deriving Repr, DecidableEq

/-- `PolarSample` as seen by the pipeline: receipt time, HR (0 for PPI
frames) and the PPI batch. -/
structure PolarSample where
  timestamp : ℚ
  hr : ℤ
  ppi_ms : List ℚ
deriving Repr, DecidableEq

/-- The pipeline state touched by `RealtimePipeline._handle_sample` and
`_emit_early_hr_inference`, together with the inference engine's
smoothing state and fatigue history (owned by `CognitiveInference`,
reproduced here to show the early path never touches them). -/
structure PipelineState where
  current_hr : ℤ
  last_hr_time : ℚ
  early_inference_sent : Bool
  window : SWState
  prev_scores : Option CognitiveScores
  fatigue_history : List (ℚ × ℚ)
deriving Repr, DecidableEq

/-- Pipeline state right after `start_monitoring`'s reset. -/
def PipelineState.init : PipelineState :=
  { current_hr := 0, last_hr_time := 0, early_inference_sent := false
    window := SWState.init, prev_scores := none, fatigue_history := [] }

/-- What one `_handle_sample` call produced: the new state, the early
HR-only inferences emitted, the `hr_update` events, and the windows
handed to `_handle_window`. -/
structure HandleResult where
  state : PipelineState
  early_emits : List InferenceResult
  hr_updates : List (ℤ × ℚ)
  window_emits : List WindowData
deriving Repr, DecidableEq

/-- `RealtimePipeline._emit_early_hr_inference` (lines 129-167): the
degraded HR-only result is constructed directly — scores from the two
clamp formulas with `fatigue = 0`, a zero-filled feature vector except
`mean_hr` and `mean_rr = 60000/hr`, and a zero fatigue trend.  Neither
`CognitiveInference._smooth` nor the fatigue history is involved. -/
def emitEarlyHrInference (hr : ℤ) (timestamp : ℚ) : InferenceResult :=
  let stress_estimate := max 0 (min 100 (((hr : ℚ) - 60) * (3 / 2)))
  let load_estimate := max 0 (min 100 (((hr : ℚ) - 55) * (4 / 5)))
  let mean_rr : ℚ := if 0 < hr then 60000 / (hr : ℚ) else 800
  { scores := { stress := stress_estimate, cognitive_load := load_estimate
                fatigue := 0, timestamp := timestamp }
    features := { mean_hr := (hr : ℚ), mean_rr := mean_rr
                  sdnn := 0, rmssd := 0, pnn50 := 0, sdsd := 0, cv_rr := 0
                  lf_power := 0, hf_power := 0, lf_hf_ratio := 0
                  total_power := 0, sd1 := 0, sd2 := 0, sd_ratio := 0
                  quality_ratio := 0, sample_count := 0 }
    fatigue_trend := { slope := 0, predicted_fatigue_10min := 0
                       confidence := 0 }
    timestamp := timestamp
    window_quality := 0 }

/-- `RealtimePipeline._handle_sample` (lines 79-93).  The early HR-only
inference fires only when `hr > 0`, the window buffer is empty and
`_early_inference_sent` is still false; PPI batches go to
`add_samples` (whose wall clock coincides with the receipt timestamp). -/
def handleSample (cfg : SignalConfig) (st : PipelineState)
    (sample : PolarSample) : HandleResult :=
  let (st1, hrUps, early) :=
    if 0 < sample.hr then
      let stH := { st with current_hr := sample.hr
                           last_hr_time := sample.timestamp }
      if stH.window.buffer.length = 0 ∧ !stH.early_inference_sent then
        ({ stH with early_inference_sent := true },
          [(sample.hr, sample.timestamp)],
          [emitEarlyHrInference sample.hr sample.timestamp])
      else (stH, [(sample.hr, sample.timestamp)], [])
    else (st, [], [])
  if sample.ppi_ms ≠ [] then
    let (w', emitted) :=
      addSamples cfg st1.window sample.ppi_ms sample.timestamp sample.timestamp
    { state := { st1 with window := w' }
      early_emits := early
      hr_updates := hrUps
      window_emits := match emitted with | none => [] | some w => [w] }
  else
    { state := st1, early_emits := early, hr_updates := hrUps
      window_emits := [] }

/-- A configuration with the repository's default thresholds
(`SignalConfig` defaults: 15 s window, 1 s step, 300-2000 ms PPI range,
0.20 diff ratio, 0.80 quality floor). -/
def defaultSignalConfig : SignalConfig :=
  { window_size_sec := 15, window_step_sec := 1, min_ppi_ms := 300
    max_ppi_ms := 2000, max_ppi_diff_ratio := 1 / 5
    min_quality_ratio := 4 / 5 }

/-- First step of the C1 scenario: HR = 72 arrives at `t = 0` with the
window buffer empty. -/
def earlyRunOne : HandleResult :=
  handleSample defaultSignalConfig PipelineState.init
    { timestamp := 0, hr := 72, ppi_ms := [] }

/-- Second step of the C1 scenario: HR = 78 arrives at `t = 4`, four
seconds after the only early output, with the buffer still empty. -/
def earlyRunTwo : HandleResult :=
  handleSample defaultSignalConfig earlyRunOne.state
    { timestamp := 4, hr := 78, ppi_ms := [] }

/-- The buffer after two `add_samples` batches: `[1000]` at `t = 10`,
then `[1000, 1000]` at `t = 10.1`. -/
def nonMonoBuf : List WSample :=
  (addSamples defaultSignalConfig
    (addSamples defaultSignalConfig SWState.init [1000] 10 10).1
    [1000, 1000] (101 / 10) (101 / 10)).1.buffer

/-! ## Helper lemmas -/

/-- The mask produced by `clean` has one entry per input interval. -/
lemma maskValid_length (cfg : SignalConfig) (ppi : List ℚ) :
    (maskValid cfg ppi).length = ppi.length := by
  unfold maskValid rangeMask succMask
  split <;> simp

/-- `_try_emit` never changes the buffer. -/
lemma tryEmit_buffer (cfg : SignalConfig) (st : SWState) (now : ℚ) :
    ((tryEmit cfg st now).1).buffer = st.buffer := by
  unfold tryEmit
  split
  · rfl
  · split
    · rfl
    · split <;> (dsimp only; split <;> rfl)

/-- The buffer produced by `add_samples` does not depend on the emission
step: append the reconstructed batch, then evict. -/
lemma addSamples_buffer (cfg : SignalConfig) (st : SWState)
    (ppi_ms : List ℚ) (timestamp now : ℚ) :
    ((addSamples cfg st ppi_ms timestamp now).1).buffer =
      evictOld cfg
        (st.buffer ++ (reconRev ppi_ms.reverse timestamp).reverse) := by
  unfold addSamples
  rw [tryEmit_buffer]

/-! ## C7: quality ratio of `clean` -/

/-- C7: for every input, `clean` returns `quality_ratio` exactly equal to
`count(mask_valid) / len(ppi)`, a value in `[0, 1]`; for the empty input
it returns an all-empty result with `quality_ratio = 0`. -/
theorem clean_quality_ratio_exact (cfg : SignalConfig)
    (ppi_ms timestamps : List ℚ) :
    (clean cfg ppi_ms timestamps).quality_ratio =
      (((clean cfg ppi_ms timestamps).mask_valid.count true : ℚ)) /
        (ppi_ms.length : ℚ) ∧
    0 ≤ (clean cfg ppi_ms timestamps).quality_ratio ∧
    (clean cfg ppi_ms timestamps).quality_ratio ≤ 1 ∧
    clean cfg [] timestamps =
      { timestamps := [], intervals_ms := [], mask_valid := []
        quality_ratio := 0, n_original := 0, n_removed := 0 } := by
  have hempty : clean cfg [] timestamps =
      { timestamps := [], intervals_ms := [], mask_valid := []
        quality_ratio := 0, n_original := 0, n_removed := 0 } := by
    unfold clean; simp
  rcases eq_or_ne ppi_ms [] with h | h
  · subst h
    refine ⟨?_, ?_, ?_, hempty⟩ <;> simp [hempty]
  · have hlen : 0 < ppi_ms.length := List.length_pos.mpr h
    have hcount : (clean cfg ppi_ms timestamps).mask_valid.count true ≤
        ppi_ms.length := by
      unfold clean
      simp only [h, if_false]
      calc (maskValid cfg ppi_ms).count true ≤ (maskValid cfg ppi_ms).length :=
            List.count_le_length _ _
        _ = ppi_ms.length := maskValid_length cfg ppi_ms
    have hq : (clean cfg ppi_ms timestamps).quality_ratio =
        (((clean cfg ppi_ms timestamps).mask_valid.count true : ℚ)) /
          (ppi_ms.length : ℚ) := by
      unfold clean
      simp [h]
    refine ⟨hq, ?_, ?_, hempty⟩
    · rw [hq]
      positivity
    · rw [hq]
      rw [div_le_one (by exact_mod_cast hlen)]
      exact_mod_cast hcount

/-! ## C10: the unguarded division of the successive-difference filter -/

/-- C10: the successive-difference step divides by `ppi[i]` with no zero
guard.  When every interval is strictly positive the division-by-zero
point of the checked embedding `cleanChecked` is unreachable (the cleaner
is total), whereas an input holding a zero interval reaches it. -/
theorem cleanChecked_total_on_positive :
    (∀ (cfg : SignalConfig) (ppi_ms timestamps : List ℚ),
      (∀ p ∈ ppi_ms, 0 < p) → (cleanChecked cfg ppi_ms timestamps).isSome) ∧
    (∀ cfg : SignalConfig, cleanChecked cfg [0, 100] [0, 0] = none) := by
  constructor
  · intro cfg ppi_ms timestamps hpos
    unfold cleanChecked
    split
    · simp
    · split
      · rename_i hne hlen
        have hall : (List.range ppi_ms.length).all
            (fun j => (badAtChecked cfg ppi_ms j).isSome) = true := by
          rw [List.all_eq_true]
          intro j hj
          unfold badAtChecked
          split
          · rename_i hj1
            unfold ratioExceedsChecked
            have hjlt : j < ppi_ms.length := by omega
            have hmem : ppi_ms.getD j 0 ∈ ppi_ms := by
              rw [List.getD_eq_getElem ppi_ms 0 hjlt]
              exact List.getElem_mem hjlt
            have hne0 : ppi_ms.getD j 0 ≠ 0 := ne_of_gt (hpos _ hmem)
            rw [if_neg hne0]
            simp
          · simp
        simp [hall]
      · simp
  · intro cfg
    have h0 : badAtChecked cfg [0, 100] 0 = none := by
      unfold badAtChecked ratioExceedsChecked
      norm_num
    have hall : ((List.range ([0, 100] : List ℚ).length).all
        (fun j => (badAtChecked cfg [0, 100] j).isSome)) = false := by
      have hr : List.range ([0, 100] : List ℚ).length = [0, 1] := by
        show List.range 2 = [0, 1]
        decide
      rw [hr]
      simp [h0]
    unfold cleanChecked
    simp [hall]
    exact ⟨0, by norm_num, h0⟩

/-- Witness for C10 at a concrete strictly positive input. -/
theorem cleanChecked_total_on_positive_witness :
    (∀ p ∈ ([800, 900] : List ℚ), 0 < p) ∧
    (cleanChecked defaultSignalConfig [800, 900] [0, 0]).isSome :=
  ⟨by decide,
    cleanChecked_total_on_positive.1 defaultSignalConfig [800, 900] [0, 0]
      (by decide)⟩

/-! ## C4: the frame-type byte of PMD data frames -/

/-- C4 counterexample: a 16-byte frame whose frame-type byte (byte 9) is
`0x01` — not `0x00` — is nevertheless parsed and delivered to the
callback (one PPI sample of 800 ms), so such frames are not dropped. -/
theorem handlePmdData_ignores_frame_type :
    (([3, 0, 0, 0, 0, 0, 0, 0, 0, 1, 0, 32, 3, 0, 0, 1] : List ℕ).getD 9 0
        ≠ 0) ∧
    handlePmdData [3, 0, 0, 0, 0, 0, 0, 0, 0, 1, 0, 32, 3, 0, 0, 1] =
      some { ppi_ms := [800], ppi_errors_ms := [0], rr_quality := [true] } := by
  constructor
  · decide
  · rfl

/-- A byte list of length at least 6 always yields at least one parsed
PMD sample. -/
lemma parsePmdSamples_ne_nil {raw : List ℕ} (h : 6 ≤ raw.length) :
    parsePmdSamples raw ≠ [] := by
  rcases raw with _ | ⟨a, _ | ⟨b, _ | ⟨c, _ | ⟨d, _ | ⟨e, _ | ⟨f, rest⟩⟩⟩⟩⟩⟩ <;>
    simp_all [parsePmdSamples]

/-- C4 amended: `_handle_pmd_data` drops a frame exactly when it is
shorter than 16 bytes or its measurement-type byte (byte 0) is not
`0x03`; the frame-type byte (byte 9) is never examined, so frames with a
non-raw frame type are still parsed and the callback is invoked. -/
theorem handlePmdData_drop_characterisation (data : List ℕ) :
    handlePmdData data = none ↔
      data.length < 16 ∨ data.getD 0 0 ≠ 3 := by
  unfold handlePmdData
  rcases lt_or_le data.length 16 with h1 | h1
  · rw [if_pos h1]
    simp [h1]
  · rw [if_neg (Nat.not_lt.mpr h1)]
    rcases eq_or_ne (data.getD 0 0) 3 with h2 | h2
    · rw [if_neg (by simpa using h2)]
      have hlen : 6 ≤ (data.drop 10).length := by
        rw [List.length_drop]; omega
      have hne := parsePmdSamples_ne_nil hlen
      rw [if_neg hne]
      simp [Nat.not_lt.mpr h1, h2]
      rw [← List.getD_eq_getElem?_getD]
      exact h2
    · rw [if_pos h2]
      simp [Nat.not_lt.mpr h1, h2]
      rw [← List.getD_eq_getElem?_getD]
      exact h2

/-! ## C2: START PPI command response with non-zero status -/

/-- C2 amended: a PMD control response to START (op `0x02`) with non-zero
status byte is logged at error level and changes no client state field,
but `start_streaming` has already entered the `STREAMING` state and set
`_pmd_streaming` before any response arrives, so streaming remains
claimed active. -/
theorem handlePmdControl_start_error (st : PolarClientState) (data : List ℕ)
    (h1 : 4 ≤ data.length) (h2 : data.getD 0 0 = 0xF0)
    (h3 : data.getD 1 0 = 0x02) (h4 : data.getD 3 0 ≠ 0) :
    (LogLevel.error, "PMD START PPI failed") ∈ (handlePmdControl st data).log ∧
    (handlePmdControl st data).connection_state = st.connection_state ∧
    (handlePmdControl st data).pmd_streaming = st.pmd_streaming ∧
    (∀ stc : PolarClientState, stc.connected = true →
      (startStreaming stc).getD stc =
        { stc with
          running := true
          connection_state := ConnectionState.streaming
          pmd_streaming := true
          log := stc.log ++
            [(LogLevel.info, "HR notifications started"),
             (LogLevel.info, "PMD subscriptions active"),
             (LogLevel.info, "PPI streaming started via PMD SDK")] }) := by
  have hred : handlePmdControl st data =
      { st with log := (st.log ++ [(LogLevel.info, "PMD response")]) ++
          [(LogLevel.error, "PMD START PPI failed")] } := by
    simp only [handlePmdControl]
    rw [if_pos ⟨h1, h2⟩, if_pos ⟨h3, h4⟩]
  refine ⟨?_, ?_, ?_, ?_⟩
  · rw [hred]
    simp
  · rw [hred]
  · rw [hred]
  · intro stc hc
    unfold startStreaming
    simp [hc]

/-- Witness for C2's amended theorem at a concrete error response. -/
theorem handlePmdControl_start_error_witness :
    4 ≤ ([240, 2, 3, 1] : List ℕ).length ∧
    ([240, 2, 3, 1] : List ℕ).getD 0 0 = 0xF0 ∧
    ([240, 2, 3, 1] : List ℕ).getD 1 0 = 0x02 ∧
    ([240, 2, 3, 1] : List ℕ).getD 3 0 ≠ 0 ∧
    (LogLevel.error, "PMD START PPI failed") ∈
      (handlePmdControl
        { connection_state := ConnectionState.streaming, pmd_streaming := true
          running := true, connected := true, log := [] }
        [240, 2, 3, 1]).log :=
  ⟨by decide, by decide, by decide, by decide,
    (handlePmdControl_start_error
      { connection_state := ConnectionState.streaming, pmd_streaming := true
        running := true, connected := true, log := [] }
      [240, 2, 3, 1] (by decide) (by decide) (by decide) (by decide)).1⟩

/-- C2 counterexample: after `start_streaming` on a connected client, an
error response (status 1) to START PPI leaves the client in the
`STREAMING` state with `_pmd_streaming = True` — streaming is still
claimed successful, contradicting the claim. -/
theorem start_error_response_keeps_streaming_state :
    ((handlePmdControl
        ((startStreaming
          { connection_state := ConnectionState.connected
            pmd_streaming := false, running := false, connected := true
            log := [] }).getD
          { connection_state := ConnectionState.disconnected
            pmd_streaming := false, running := false, connected := false
            log := [] })
        [240, 2, 3, 1]).connection_state = ConnectionState.streaming) ∧
    ((handlePmdControl
        ((startStreaming
          { connection_state := ConnectionState.connected
            pmd_streaming := false, running := false, connected := true
            log := [] }).getD
          { connection_state := ConnectionState.disconnected
            pmd_streaming := false, running := false, connected := false
            log := [] })
        [240, 2, 3, 1]).pmd_streaming = true) := by
  constructor <;> rfl

/-! ## C1: the HR-only early-inference fallback -/

/-- C1 counterexample: the first HR sample produces one early inference
(at `t = 0`), but a second HR sample four seconds later — buffer still
empty, well past the claimed 3-second refresh — produces none; moreover
the early output never goes through the EMA smoother (`_prev_scores`
stays `None`) and nothing is appended to the fatigue history. -/
theorem early_hr_inference_not_reemitted :
    earlyRunOne.early_emits.length = 1 ∧
    earlyRunOne.early_emits.map (·.timestamp) = [0] ∧
    earlyRunTwo.state.window.buffer = [] ∧
    earlyRunTwo.early_emits = [] ∧
    earlyRunOne.state.prev_scores = none ∧
    earlyRunTwo.state.prev_scores = none ∧
    earlyRunTwo.state.fatigue_history = [] := by
  decide

/-- C1 amended: on an HR sample (`hr > 0`, no PPI payload) with the
window buffer empty, a degraded HR-only inference is emitted only when
`_early_inference_sent` is still false — once per monitoring run, with no
3-second refresh.  The result is built directly: clamped stress/load
estimates, `fatigue = 0`, zero fatigue trend, features zero-filled except
`mean_hr = hr` and `mean_rr = 60000/hr`; the EMA smoother state and the
fatigue history are not touched. -/
theorem handleSample_early_hr (cfg : SignalConfig) (st : PipelineState)
    (s : PolarSample) (hhr : 0 < s.hr) (hppi : s.ppi_ms = [])
    (hbuf : st.window.buffer = []) :
    (st.early_inference_sent = false →
      (handleSample cfg st s).early_emits =
        [emitEarlyHrInference s.hr s.timestamp] ∧
      (handleSample cfg st s).state.early_inference_sent = true) ∧
    (st.early_inference_sent = true →
      (handleSample cfg st s).early_emits = []) ∧
    (handleSample cfg st s).state.prev_scores = st.prev_scores ∧
    (handleSample cfg st s).state.fatigue_history = st.fatigue_history ∧
    (handleSample cfg st s).state.window = st.window ∧
    (emitEarlyHrInference s.hr s.timestamp).scores.stress =
      max 0 (min 100 (((s.hr : ℚ) - 60) * (3 / 2))) ∧
    (emitEarlyHrInference s.hr s.timestamp).scores.cognitive_load =
      max 0 (min 100 (((s.hr : ℚ) - 55) * (4 / 5))) ∧
    (emitEarlyHrInference s.hr s.timestamp).scores.fatigue = 0 ∧
    (emitEarlyHrInference s.hr s.timestamp).fatigue_trend =
      { slope := 0, predicted_fatigue_10min := 0, confidence := 0 } ∧
    (emitEarlyHrInference s.hr s.timestamp).features.mean_hr = (s.hr : ℚ) ∧
    (emitEarlyHrInference s.hr s.timestamp).features.mean_rr =
      60000 / (s.hr : ℚ) ∧
    (emitEarlyHrInference s.hr s.timestamp).features.sdnn = 0 ∧
    (emitEarlyHrInference s.hr s.timestamp).features.rmssd = 0 := by
  have hrr : (emitEarlyHrInference s.hr s.timestamp).features.mean_rr =
      60000 / (s.hr : ℚ) := by
    unfold emitEarlyHrInference
    simp [hhr]
  refine ⟨fun hes => ?_, fun hes => ?_, ?_, ?_, ?_,
    rfl, rfl, rfl, rfl, rfl, hrr, rfl, rfl⟩
  · constructor <;> simp [handleSample, hppi, hhr, hbuf, hes]
  · simp [handleSample, hppi, hhr, hbuf, hes]
  · rcases hes : st.early_inference_sent <;>
      simp [handleSample, hppi, hhr, hbuf, hes]
  · rcases hes : st.early_inference_sent <;>
      simp [handleSample, hppi, hhr, hbuf, hes]
  · rcases hes : st.early_inference_sent <;>
      simp [handleSample, hppi, hhr, hbuf, hes]

/-- Witness for C1's amended theorem at HR = 72, `t = 0`, fresh state. -/
theorem handleSample_early_hr_witness :
    (0 : ℤ) < 72 ∧
    PipelineState.init.window.buffer = [] ∧
    (handleSample defaultSignalConfig PipelineState.init
        { timestamp := 0, hr := 72, ppi_ms := [] }).state.prev_scores =
      PipelineState.init.prev_scores :=
  ⟨by decide, rfl,
    (handleSample_early_hr defaultSignalConfig PipelineState.init
      { timestamp := 0, hr := 72, ppi_ms := [] }
      (by decide) rfl rfl).2.2.1⟩

/-! ## C3: monotonicity of the interval-buffer timestamps -/

/-- C3 counterexample: after the second batch the buffer holds timestamps
`10, 9.1, 10.1` — walking backward from the second batch's "now" placed
its older sample before the previous batch's sample, so the buffer is not
monotonically non-decreasing. -/
theorem interval_buffer_not_monotone :
    nonMonoBuf =
      [{ timestamp := 10, ppi_ms := 1000 },
       { timestamp := 91 / 10, ppi_ms := 1000 },
       { timestamp := 101 / 10, ppi_ms := 1000 }] ∧
    ¬ List.Chain' (fun a b : WSample => a.timestamp ≤ b.timestamp)
      nonMonoBuf := by
  have h1 : ((addSamples defaultSignalConfig SWState.init [1000] 10 10).1).buffer
      = [{ timestamp := 10, ppi_ms := 1000 }] := by
    rw [addSamples_buffer]
    norm_num [SWState.init, reconRev, evictOld, defaultSignalConfig,
      List.dropWhile]
  have h : nonMonoBuf =
      [{ timestamp := 10, ppi_ms := 1000 },
       { timestamp := 91 / 10, ppi_ms := 1000 },
       { timestamp := 101 / 10, ppi_ms := 1000 }] := by
    unfold nonMonoBuf
    rw [addSamples_buffer, h1]
    norm_num [reconRev, evictOld, defaultSignalConfig, List.dropWhile]
  refine ⟨h, ?_⟩
  rw [h]
  intro hch
  have h12 := hch.rel_head
  norm_num at h12

/-- Every timestamp reconstructed by the backward walk lies at or below
the batch's nominal time. -/
lemma reconRev_ts_le (l : List ℚ) (t : ℚ) (hl : ∀ p ∈ l, 0 ≤ p) :
    ∀ s ∈ reconRev l t, s.timestamp ≤ t := by
  induction l generalizing t with
  | nil => simp [reconRev]
  | cons p rest ih =>
    intro s hs
    rw [reconRev, List.mem_cons] at hs
    rcases hs with rfl | hs
    · exact le_refl t
    · have hp : 0 ≤ p := hl p (by simp)
      have := ih (t - p / 1000) (fun q hq => hl q (by simp [hq])) s hs
      linarith

/-- Every timestamp reconstructed by the backward walk lies at or above
the batch time minus the batch's total duration. -/
lemma reconRev_ts_ge (l : List ℚ) (t : ℚ) (hl : ∀ p ∈ l, 0 ≤ p) :
    ∀ s ∈ reconRev l t, t - l.sum / 1000 ≤ s.timestamp := by
  induction l generalizing t with
  | nil => simp [reconRev]
  | cons p rest ih =>
    intro s hs
    rw [reconRev, List.mem_cons] at hs
    have hp : 0 ≤ p := hl p (by simp)
    have hrest : 0 ≤ rest.sum :=
      List.sum_nonneg (fun q hq => hl q (by simp [hq]))
    rcases hs with rfl | hs
    · show t - (p + rest.sum) / 1000 ≤ t
      linarith
    · have := ih (t - p / 1000) (fun q hq => hl q (by simp [hq])) s hs
      simp only [List.sum_cons]
      linarith

/-- The backward walk produces non-increasing timestamps
(newest-first). -/
lemma reconRev_chain (l : List ℚ) (t : ℚ) (hl : ∀ p ∈ l, 0 ≤ p) :
    List.Chain' (fun a b : WSample => b.timestamp ≤ a.timestamp)
      (reconRev l t) := by
  induction l generalizing t with
  | nil => simp [reconRev]
  | cons p rest ih =>
    rw [reconRev, List.chain'_cons']
    refine ⟨?_, ih _ (fun q hq => hl q (by simp [hq]))⟩
    intro y hy
    have hmem : y ∈ reconRev rest (t - p / 1000) := List.mem_of_mem_head? hy
    have hle := reconRev_ts_le rest (t - p / 1000)
      (fun q hq => hl q (by simp [hq])) y hmem
    have hp : 0 ≤ p := hl p (by simp)
    dsimp
    linarith

/-- `dropWhile` preserves chains. -/
lemma chain'_dropWhile {α : Type} {R : α → α → Prop} {p : α → Bool}
    {l : List α} (h : List.Chain' R l) :
    List.Chain' R (l.dropWhile p) := by
  induction l with
  | nil => simp
  | cons a t ih =>
    rw [List.dropWhile_cons]
    split
    · exact ih h.tail
    · exact h

/-- Eviction only drops a prefix, so it preserves chains. -/
lemma evictOld_chain (cfg : SignalConfig) {R : WSample → WSample → Prop}
    {buf : List WSample} (h : List.Chain' R buf) :
    List.Chain' R (evictOld cfg buf) := by
  unfold evictOld
  split
  · exact h
  · exact chain'_dropWhile h

/-- C3 amended: within one batch the reconstructed timestamps are
non-decreasing, and `add_samples` preserves buffer monotonicity provided
the arriving batch is late enough that all its reconstructed timestamps
lie at or after every timestamp already buffered; the code does not
enforce monotonicity across arbitrary batch sequences. -/
theorem addSamples_monotone (cfg : SignalConfig) (st : SWState)
    (ppi_ms : List ℚ) (timestamp now : ℚ)
    (hbuf : List.Chain' (fun a b : WSample => a.timestamp ≤ b.timestamp)
      st.buffer)
    (hppi : ∀ p ∈ ppi_ms, 0 ≤ p)
    (hgap : ∀ a ∈ st.buffer, a.timestamp ≤ timestamp - ppi_ms.sum / 1000) :
    List.Chain' (fun a b : WSample => a.timestamp ≤ b.timestamp)
      ((addSamples cfg st ppi_ms timestamp now).1.buffer) := by
  unfold addSamples
  rw [tryEmit_buffer]
  apply evictOld_chain
  rw [List.chain'_append]
  have hrev : ∀ p ∈ ppi_ms.reverse, (0:ℚ) ≤ p := by
    intro p hp
    exact hppi p (List.mem_reverse.mp hp)
  refine ⟨hbuf, ?_, ?_⟩
  · rw [List.chain'_reverse]
    have := reconRev_chain ppi_ms.reverse timestamp hrev
    simpa [flip] using this
  · intro x hx y hy
    have hxmem : x ∈ st.buffer := List.mem_of_mem_getLast? hx
    have hymem : y ∈ (reconRev ppi_ms.reverse timestamp).reverse :=
      List.mem_of_mem_head? hy
    rw [List.mem_reverse] at hymem
    have hge := reconRev_ts_ge ppi_ms.reverse timestamp hrev y hymem
    rw [List.sum_reverse] at hge
    exact le_trans (hgap x hxmem) hge

/-- Witness for C3's amended theorem: one batch into an empty buffer. -/
theorem addSamples_monotone_witness :
    List.Chain' (fun a b : WSample => a.timestamp ≤ b.timestamp)
      SWState.init.buffer ∧
    (∀ p ∈ ([800, 820] : List ℚ), 0 ≤ p) ∧
    List.Chain' (fun a b : WSample => a.timestamp ≤ b.timestamp)
      ((addSamples defaultSignalConfig SWState.init [800, 820] 10 10).1.buffer) :=
  ⟨List.chain'_nil, by decide,
    addSamples_monotone defaultSignalConfig SWState.init [800, 820] 10 10
      List.chain'_nil (by decide) (by intro a ha; cases ha)⟩

/-! ## C5: emission spacing of the sliding window -/

/-- What `_try_emit` guarantees about the clock: an emission happens only
when at least `window_step_sec` has passed since `_last_emit_time`, which
is then set to `now`; without an emission `_last_emit_time` is
unchanged. -/
lemma tryEmit_emit_sound (cfg : SignalConfig) (st : SWState) (now : ℚ) :
    ((tryEmit cfg st now).2.isSome →
      st.last_emit_time + cfg.window_step_sec ≤ now ∧
      ((tryEmit cfg st now).1).last_emit_time = now) ∧
    ((tryEmit cfg st now).2 = none →
      ((tryEmit cfg st now).1).last_emit_time = st.last_emit_time) := by
  unfold tryEmit
  split
  · exact ⟨fun h => by simp at h, fun _ => rfl⟩
  · rename_i hge
    have hstep : st.last_emit_time + cfg.window_step_sec ≤ now := by
      have := not_lt.mp hge
      linarith
    split
    · exact ⟨fun h => by simp at h, fun _ => rfl⟩
    · split <;> (dsimp only; split)
      · exact ⟨fun h => by simp at h, fun _ => rfl⟩
      · exact ⟨fun _ => ⟨hstep, rfl⟩, fun h => by simp at h⟩
      · exact ⟨fun h => by simp at h, fun _ => rfl⟩
      · exact ⟨fun _ => ⟨hstep, rfl⟩, fun h => by simp at h⟩

/-- The same facts lifted through `add_samples`. -/
lemma addSamples_emit_sound (cfg : SignalConfig) (st : SWState)
    (ppi_ms : List ℚ) (timestamp now : ℚ) :
    (((addSamples cfg st ppi_ms timestamp now).2).isSome →
      st.last_emit_time + cfg.window_step_sec ≤ now ∧
      ((addSamples cfg st ppi_ms timestamp now).1).last_emit_time = now) ∧
    ((addSamples cfg st ppi_ms timestamp now).2 = none →
      ((addSamples cfg st ppi_ms timestamp now).1).last_emit_time =
        st.last_emit_time) := by
  unfold addSamples
  exact tryEmit_emit_sound cfg _ now

/-- Unfolding equation for one `runWindow` step. -/
lemma runWindow_cons (cfg : SignalConfig) (st : SWState) (ppi : List ℚ)
    (ts now : ℚ) (rest : List (List ℚ × ℚ × ℚ)) :
    runWindow cfg st ((ppi, ts, now) :: rest) =
      ((runWindow cfg (addSamples cfg st ppi ts now).1 rest).1,
        (match (addSamples cfg st ppi ts now).2 with
          | none => [] | some _ => [now]) ++
          (runWindow cfg (addSamples cfg st ppi ts now).1 rest).2) := rfl

/-- Invariant run: the emission times of a whole run are pairwise at
least one step apart, and each lies at least one step after the starting
state's `_last_emit_time`. -/
lemma runWindow_spacing_aux (cfg : SignalConfig)
    (h : 0 ≤ cfg.window_step_sec) :
    ∀ (trace : List (List ℚ × ℚ × ℚ)) (st : SWState),
      List.Pairwise (fun a b => a + cfg.window_step_sec ≤ b)
        (runWindow cfg st trace).2 ∧
      ∀ t ∈ (runWindow cfg st trace).2,
        st.last_emit_time + cfg.window_step_sec ≤ t := by
  intro trace
  induction trace with
  | nil =>
    intro st
    constructor
    · simp [runWindow]
    · intro t ht
      simp [runWindow] at ht
  | cons entry rest ih =>
    intro st
    obtain ⟨ppi, ts, now⟩ := entry
    rw [runWindow_cons]
    obtain ⟨ihp, ihb⟩ := ih (addSamples cfg st ppi ts now).1
    rcases hem : (addSamples cfg st ppi ts now).2 with _ | w
    · have hlast := (addSamples_emit_sound cfg st ppi ts now).2 hem
      constructor
      · simpa [hem] using ihp
      · intro t ht
        simp only [hem, List.nil_append] at ht
        have := ihb t ht
        rw [hlast] at this
        exact this
    · have hsome := (addSamples_emit_sound cfg st ppi ts now).1
        (by rw [hem]; rfl)
      obtain ⟨hstep, hlast⟩ := hsome
      constructor
      · simp only [hem, List.singleton_append]
        refine List.Pairwise.cons ?_ ihp
        intro t ht
        have := ihb t ht
        rw [hlast] at this
        linarith
      · intro t ht
        simp only [hem, List.singleton_append, List.mem_cons] at ht
        rcases ht with rfl | ht
        · exact hstep
        · have := ihb t ht
          rw [hlast] at this
          linarith

/-- C5: for every run of `add_samples` calls, the wall-clock times of any
two window emissions differ by at least `window_step_sec` — at most one
window per `window_step_sec` of wall-clock time. -/
theorem window_emission_spacing (cfg : SignalConfig)
    (trace : List (List ℚ × ℚ × ℚ)) (h : 0 ≤ cfg.window_step_sec) :
    List.Pairwise (fun a b => a + cfg.window_step_sec ≤ b)
      (runWindow cfg SWState.init trace).2 :=
  (runWindow_spacing_aux cfg h trace SWState.init).1

/-- Witness for C5 on a concrete two-emission trace. -/
theorem window_emission_spacing_witness :
    (0 : ℚ) ≤ defaultSignalConfig.window_step_sec ∧
    List.Pairwise
      (fun a b => a + defaultSignalConfig.window_step_sec ≤ b)
      (runWindow defaultSignalConfig SWState.init
        [([1000, 1000, 1000, 1000, 1000, 1000], 100, 100),
         ([1000, 1000, 1000, 1000, 1000], 105, 105)]).2 :=
  ⟨by norm_num [defaultSignalConfig],
    window_emission_spacing defaultSignalConfig
      [([1000, 1000, 1000, 1000, 1000, 1000], 100, 100),
       ([1000, 1000, 1000, 1000, 1000], 105, 105)]
      (by norm_num [defaultSignalConfig])⟩

/-! ## C6: score components within [0, 100] -/

/-- `np.clip (· , 0, 100)` is bounded below by 0. -/
lemma npClip_nonneg (x : ℚ) : 0 ≤ npClip x 0 100 :=
  le_min (le_max_right x 0) (by norm_num)

/-- `np.clip (· , 0, 100)` is bounded above by 100. -/
lemma npClip_le (x : ℚ) : npClip x 0 100 ≤ 100 := min_le_right _ _

/-- The heuristic predictor always yields scores in `[0, 100]`. -/
lemma heuristicPredict_in_range (features : List ℚ) :
    ScoresInRange (heuristicPredict features) := by
  unfold heuristicPredict ScoresInRange
  refine ⟨?_, ?_, ?_, ?_, ?_, ?_⟩ <;> dsimp only <;>
    first
      | exact npClip_nonneg _
      | exact npClip_le _

/-- The trained-model clamp always yields scores in `[0, 100]`. -/
lemma modelPredictClip_in_range (predictions : List ℚ) :
    ScoresInRange (modelPredictClip predictions) := by
  unfold modelPredictClip ScoresInRange
  refine ⟨?_, ?_, ?_, ?_, ?_, ?_⟩ <;> dsimp only <;>
    first
      | exact npClip_nonneg _
      | exact npClip_le _

/-- EMA smoothing keeps scores in `[0, 100]` as long as every raw input
is, for any `α ∈ [0, 1]` and any starting state already in range. -/
lemma smoothTrace_in_range (alpha : ℚ) (h0 : 0 ≤ alpha) (h1 : alpha ≤ 1) :
    ∀ (raws : List CognitiveScores) (prev : Option CognitiveScores),
      (∀ p, prev = some p → ScoresInRange p) →
      (∀ r ∈ raws, ScoresInRange r) →
      ∀ s ∈ smoothTrace alpha prev raws, ScoresInRange s := by
  intro raws
  induction raws with
  | nil =>
    intro prev _ _ s hs
    simp [smoothTrace] at hs
  | cons raw rest ih =>
    intro prev hprev hraws s hs
    rw [smoothTrace] at hs
    have hraw : ScoresInRange raw := hraws raw (by simp)
    have hout : ScoresInRange (smoothStep alpha prev raw) := by
      unfold smoothStep
      rcases prev with _ | p
      · exact hraw
      · have hp := hprev p rfl
        obtain ⟨hp1, hp2, hp3, hp4, hp5, hp6⟩ := hp
        obtain ⟨hr1, hr2, hr3, hr4, hr5, hr6⟩ := hraw
        refine ⟨?_, ?_, ?_, ?_, ?_, ?_⟩ <;> dsimp only <;> nlinarith
    rcases List.mem_cons.mp hs with rfl | hs
    · exact hout
    · exact ih (some (smoothStep alpha prev raw))
        (fun q hq => by cases hq; exact hout)
        (fun r hr => hraws r (by simp [hr])) s hs

/-- C6: every score output — the heuristic prediction, the clamped model
prediction, and every output of the EMA smoother fed with in-range raw
scores (`α ∈ [0, 1]`, fresh smoothing state) — has all of stress,
cognitive load and fatigue in `[0, 100]`. -/
theorem score_outputs_in_range (features predictions : List ℚ)
    (alpha : ℚ) (raws : List CognitiveScores)
    (h0 : 0 ≤ alpha) (h1 : alpha ≤ 1)
    (hraws : ∀ r ∈ raws, ScoresInRange r) :
    ScoresInRange (heuristicPredict features) ∧
    ScoresInRange (modelPredictClip predictions) ∧
    ∀ s ∈ smoothTrace alpha none raws, ScoresInRange s :=
  ⟨heuristicPredict_in_range features, modelPredictClip_in_range predictions,
    smoothTrace_in_range alpha h0 h1 raws none
      (fun _ hp => Option.noConfusion hp) hraws⟩

/-- Witness for C6 with `α = 0.3` and a two-element smoothing run. -/
theorem score_outputs_in_range_witness :
    (0 : ℚ) ≤ 3 / 10 ∧ (3 / 10 : ℚ) ≤ 1 ∧
    ScoresInRange (heuristicPredict [70, 857, 30, 25, 10]) ∧
    ∀ s ∈ smoothTrace (3 / 10) none
      [heuristicPredict [70, 857, 30, 25, 10],
       heuristicPredict [80, 750, 20, 15, 5]], ScoresInRange s := by
  have h := score_outputs_in_range [70, 857, 30, 25, 10] [] (3 / 10)
    [heuristicPredict [70, 857, 30, 25, 10],
     heuristicPredict [80, 750, 20, 15, 5]]
    (by norm_num) (by norm_num)
    (by
      intro r hr
      rcases List.mem_cons.mp hr with rfl | hr
      · exact heuristicPredict_in_range _
      · rcases List.mem_cons.mp hr with rfl | hr
        · exact heuristicPredict_in_range _
        · simp at hr)
  exact ⟨by norm_num, by norm_num, h.1, h.2.2⟩

/-! ## C9: cleaning an already-clean input -/

/-- C9: on a non-empty input whose every interval lies within
`[min_ppi_ms, max_ppi_ms]` (with a positive lower threshold) and whose
every successive difference stays within `max_ppi_diff_ratio`, `clean`
yields an all-true mask and `quality_ratio = 1`, and `interpolate`
returns the intervals unchanged. -/
theorem clean_idempotent_on_clean_input (cfg : SignalConfig)
    (ppi_ms timestamps : List ℚ)
    (hne : ppi_ms ≠ []) (hmin : 0 < cfg.min_ppi_ms)
    (hrange : ∀ p ∈ ppi_ms, cfg.min_ppi_ms ≤ p ∧ p ≤ cfg.max_ppi_ms)
    (hdiff : ∀ j, j + 1 < ppi_ms.length →
      |ppi_ms.getD (j + 1) 0 - ppi_ms.getD j 0| ≤
        cfg.max_ppi_diff_ratio * ppi_ms.getD j 0) :
    (clean cfg ppi_ms timestamps).mask_valid =
      List.replicate ppi_ms.length true ∧
    (clean cfg ppi_ms timestamps).quality_ratio = 1 ∧
    interpolate (clean cfg ppi_ms timestamps) = ppi_ms := by
  have hbad : ∀ j, badAt cfg ppi_ms j = false := by
    intro j
    unfold badAt
    split
    · rename_i hj
      unfold ratioExceeds
      have hjlt : j < ppi_ms.length := by omega
      have hmem : ppi_ms.getD j 0 ∈ ppi_ms := by
        rw [List.getD_eq_getElem _ _ hjlt]
        exact List.getElem_mem hjlt
      have hpos : 0 < ppi_ms.getD j 0 :=
        lt_of_lt_of_le hmin (hrange _ hmem).1
      rw [if_neg (ne_of_gt hpos)]
      simp only [decide_eq_false_iff_not, not_lt]
      rw [div_le_iff₀ hpos]
      have := hdiff j hj
      linarith
    · rfl
  have hrm : rangeMask cfg ppi_ms = List.replicate ppi_ms.length true := by
    unfold rangeMask
    rw [List.eq_replicate_iff]
    refine ⟨by simp, ?_⟩
    intro b hb
    rw [List.mem_map] at hb
    obtain ⟨p, hp, rfl⟩ := hb
    have := hrange p hp
    simp [this.1, this.2]
  have hsm : succMask cfg ppi_ms = List.replicate ppi_ms.length true := by
    unfold succMask
    rw [List.eq_replicate_iff]
    refine ⟨by simp, ?_⟩
    intro b hb
    rw [List.mem_map] at hb
    obtain ⟨i, hi, rfl⟩ := hb
    simp [hbad]
  have hmask : maskValid cfg ppi_ms = List.replicate ppi_ms.length true := by
    unfold maskValid
    split
    · rw [hrm, hsm]
      rw [List.zipWith_replicate]
      simp
    · exact hrm
  have hclean : clean cfg ppi_ms timestamps =
      { timestamps := timestamps, intervals_ms := ppi_ms
        mask_valid := maskValid cfg ppi_ms
        quality_ratio := (((maskValid cfg ppi_ms).count true : ℚ)) /
          (ppi_ms.length : ℚ)
        n_original := ppi_ms.length
        n_removed := ppi_ms.length - (maskValid cfg ppi_ms).count true } := by
    unfold clean
    rw [if_neg hne]
  have hlen : 0 < ppi_ms.length := List.length_pos.mpr hne
  have hcount : (maskValid cfg ppi_ms).count true = ppi_ms.length := by
    rw [hmask, List.count_replicate]
    simp
  refine ⟨?_, ?_, ?_⟩
  · rw [hclean]
    exact hmask
  · rw [hclean]
    show (((maskValid cfg ppi_ms).count true : ℚ)) / (ppi_ms.length : ℚ) = 1
    rw [hcount]
    exact div_self (by exact_mod_cast hlen.ne')
  · unfold interpolate
    rw [hclean]
    have hall : (List.replicate ppi_ms.length true).all (· = true) = true := by
      simp
    rw [if_pos]
    right
    show (maskValid cfg ppi_ms).all (· = true) = true
    rw [hmask]
    exact hall

/-- Witness for C9 on the already-clean input `[800, 800]` under the
default thresholds. -/
theorem clean_idempotent_on_clean_input_witness :
    ([800, 800] : List ℚ) ≠ [] ∧
    (0 : ℚ) < defaultSignalConfig.min_ppi_ms ∧
    (∀ p ∈ ([800, 800] : List ℚ),
      defaultSignalConfig.min_ppi_ms ≤ p ∧
      p ≤ defaultSignalConfig.max_ppi_ms) ∧
    (clean defaultSignalConfig [800, 800] [0, 1]).quality_ratio = 1 := by
  have hdiff : ∀ j, j + 1 < ([800, 800] : List ℚ).length →
      |([800, 800] : List ℚ).getD (j + 1) 0 -
        ([800, 800] : List ℚ).getD j 0| ≤
        defaultSignalConfig.max_ppi_diff_ratio *
          ([800, 800] : List ℚ).getD j 0 := by
    intro j hj
    have hj0 : j = 0 := by
      simp at hj
      omega
    subst hj0
    norm_num [List.getD_cons_succ, List.getD_cons_zero, defaultSignalConfig]
  refine ⟨by decide, by decide, by decide, ?_⟩
  exact (clean_idempotent_on_clean_input defaultSignalConfig [800, 800]
    [0, 1] (by decide) (by decide) (by decide) hdiff).2.1

/-! ## C8: interpolation of invalid indices -/

/-- `np.interp` clamps below the first abscissa. -/
lemma npInterp_le_first (x a ya : ℚ) (l : List (ℚ × ℚ)) (hxa : x ≤ a) :
    npInterp x ((a, ya) :: l) = ya := by
  cases l with
  | nil => rfl
  | cons b rest =>
    obtain ⟨xb, yb⟩ := b
    unfold npInterp
    rw [if_pos hxa]

/-- A point left of the query and followed by another such point can be
dropped. -/
lemma npInterp_skip (x c yc d yd : ℚ) (rest : List (ℚ × ℚ))
    (hcx : c < x) (hdx : d < x) :
    npInterp x ((c, yc) :: (d, yd) :: rest) =
      npInterp x ((d, yd) :: rest) := by
  conv_lhs => rw [npInterp]
  rw [if_neg (not_le.mpr hcx), if_neg (not_le.mpr hdx)]

/-- The query strictly between the first two abscissas yields the linear
interpolant. -/
lemma npInterp_bracket (x a b ya yb : ℚ) (v2 : List (ℚ × ℚ))
    (hax : a < x) (hxb : x ≤ b) :
    npInterp x ((a, ya) :: (b, yb) :: v2) =
      ya + (yb - ya) * (x - a) / (b - a) := by
  unfold npInterp
  rw [if_neg (not_le.mpr hax), if_pos hxb]

/-- On a strictly increasing abscissa list, a query bracketed by the
adjacent pair `(a, ya)`, `(b, yb)` yields the linear interpolant over
that pair. -/
lemma npInterp_bracket_append (x a b ya yb : ℚ) (v1 v2 : List (ℚ × ℚ))
    (hp : List.Pairwise (fun p q : ℚ × ℚ => p.1 < q.1)
      (v1 ++ (a, ya) :: (b, yb) :: v2))
    (hax : a < x) (hxb : x ≤ b) :
    npInterp x (v1 ++ (a, ya) :: (b, yb) :: v2) =
      ya + (yb - ya) * (x - a) / (b - a) := by
  induction v1 with
  | nil => exact npInterp_bracket x a b ya yb v2 hax hxb
  | cons c v1' ih =>
    obtain ⟨cx, cy⟩ := c
    have hp' := hp.of_cons
    have hca : cx < a := (List.pairwise_cons.mp hp).1 (a, ya) (by simp)
    have hcx : cx < x := lt_trans hca hax
    cases v1' with
    | nil =>
      show npInterp x ((cx, cy) :: (a, ya) :: (b, yb) :: v2) = _
      rw [npInterp_skip x cx cy a ya ((b, yb) :: v2) hcx hax]
      exact npInterp_bracket x a b ya yb v2 hax hxb
    | cons d v1'' =>
      obtain ⟨dx, dy⟩ := d
      have hda : dx < a := (List.pairwise_cons.mp hp').1 (a, ya) (by simp)
      have hdx : dx < x := lt_trans hda hax
      show npInterp x ((cx, cy) :: (dx, dy) :: (v1'' ++ _)) = _
      rw [npInterp_skip x cx cy dx dy _ hcx hdx]
      exact ih hp'

/-- On a strictly increasing abscissa list, a query right of the last
point yields the last ordinate (`np.interp` clamps above). -/
lemma npInterp_last (x : ℚ) (v1 : List (ℚ × ℚ)) (a ya : ℚ)
    (hp : List.Pairwise (fun p q : ℚ × ℚ => p.1 < q.1) (v1 ++ [(a, ya)]))
    (hax : a < x) :
    npInterp x (v1 ++ [(a, ya)]) = ya := by
  induction v1 with
  | nil => rfl
  | cons c v1' ih =>
    obtain ⟨cx, cy⟩ := c
    have hp' := hp.of_cons
    have hca : cx < a := (List.pairwise_cons.mp hp).1 (a, ya) (by simp)
    have hcx : cx < x := lt_trans hca hax
    cases v1' with
    | nil =>
      show npInterp x ((cx, cy) :: [(a, ya)]) = _
      rw [npInterp_skip x cx cy a ya [] hcx hax]
      simp [npInterp]
    | cons d v1'' =>
      obtain ⟨dx, dy⟩ := d
      have hda : dx < a := (List.pairwise_cons.mp hp').1 (a, ya) (by simp)
      have hdx : dx < x := lt_trans hda hax
      show npInterp x ((cx, cy) :: (dx, dy) :: (v1'' ++ _)) = _
      rw [npInterp_skip x cx cy dx dy _ hcx hdx]
      exact ih hp'

/-- The valid points of a cleaned record have strictly increasing
abscissas (they are the valid indices in order). -/
lemma validPoints_pairwise (cleaned : CleanedPPI) :
    List.Pairwise (fun p q : ℚ × ℚ => p.1 < q.1) (validPoints cleaned) := by
  unfold validPoints
  rw [List.pairwise_map]
  have h1 : List.Pairwise (· < ·)
      (List.range cleaned.intervals_ms.length) := List.pairwise_lt_range _
  have h2 := h1.filter (fun i => cleaned.mask_valid.getD i false)
  exact h2.imp (fun h => by dsimp only; exact_mod_cast h)

/-- Pointwise value of `interpolate` in the branch that actually
interpolates. -/
lemma interpolate_getD (cleaned : CleanedPPI)
    (hA : ¬ (cleaned.n_original = 0 ∨ cleaned.mask_valid.all (· = true)))
    (hB : ¬ (validPoints cleaned).length < 2)
    (i : ℕ) (hi : i < cleaned.intervals_ms.length) :
    (interpolate cleaned).getD i 0 =
      if cleaned.mask_valid.getD i false then cleaned.intervals_ms.getD i 0
      else npInterp (i : ℚ) (validPoints cleaned) := by
  unfold interpolate
  rw [if_neg hA, if_neg hB]
  have hmap : i < (List.map
      (fun i => if cleaned.mask_valid.getD i false then
          cleaned.intervals_ms.getD i 0
        else npInterp (i : ℚ) (validPoints cleaned))
      (List.range cleaned.intervals_ms.length)).length := by
    simpa using hi
  rw [List.getD_eq_getElem _ _ hmap, List.getElem_map, List.getElem_range]

/-- C8: with at least one invalid entry and at least two valid points,
`interpolate` replaces exactly the invalid indices by linear
interpolation over the index axis against the valid points (clamping to
the nearest valid value beyond the first/last valid index), leaves valid
indices unchanged, and with fewer than two valid points returns the
original array; the embedding is pure, mirroring the copies the code
makes of its input. -/
theorem interpolate_linear_spec (cleaned : CleanedPPI)
    (hlen : cleaned.mask_valid.length = cleaned.intervals_ms.length)
    (hn : cleaned.n_original = cleaned.intervals_ms.length) :
    ((validPoints cleaned).length < 2 →
      interpolate cleaned = cleaned.intervals_ms) ∧
    (∀ i, i < cleaned.intervals_ms.length →
      cleaned.mask_valid.getD i false = true →
      (interpolate cleaned).getD i 0 = cleaned.intervals_ms.getD i 0) ∧
    (∀ i, i < cleaned.intervals_ms.length →
      cleaned.mask_valid.getD i false = false →
      ∀ (v1 v2 : List (ℚ × ℚ)) (a ya b yb : ℚ),
        validPoints cleaned = v1 ++ (a, ya) :: (b, yb) :: v2 →
        a < (i : ℚ) → (i : ℚ) ≤ b →
        (interpolate cleaned).getD i 0 =
          ya + (yb - ya) * ((i : ℚ) - a) / (b - a)) ∧
    (∀ i, i < cleaned.intervals_ms.length →
      cleaned.mask_valid.getD i false = false →
      ∀ (a ya : ℚ) (v2 : List (ℚ × ℚ)),
        validPoints cleaned = (a, ya) :: v2 →
        2 ≤ (validPoints cleaned).length →
        (i : ℚ) ≤ a →
        (interpolate cleaned).getD i 0 = ya) ∧
    (∀ i, i < cleaned.intervals_ms.length →
      cleaned.mask_valid.getD i false = false →
      ∀ (v1 : List (ℚ × ℚ)) (a ya : ℚ),
        validPoints cleaned = v1 ++ [(a, ya)] →
        2 ≤ (validPoints cleaned).length →
        a < (i : ℚ) →
        (interpolate cleaned).getD i 0 = ya) := by
  have hA : ∀ i, i < cleaned.intervals_ms.length →
      cleaned.mask_valid.getD i false = false →
      ¬ (cleaned.n_original = 0 ∨ cleaned.mask_valid.all (· = true)) := by
    intro i hi hm
    rintro (h0 | hall)
    · rw [hn] at h0
      omega
    · have himem : cleaned.mask_valid.getD i false ∈ cleaned.mask_valid := by
        have hilt : i < cleaned.mask_valid.length := by rw [hlen]; exact hi
        rw [List.getD_eq_getElem _ _ hilt]
        exact List.getElem_mem hilt
      have := List.all_eq_true.mp hall _ himem
      rw [hm] at this
      simp at this
  have hid : (cleaned.n_original = 0 ∨ cleaned.mask_valid.all (· = true)) →
      interpolate cleaned = cleaned.intervals_ms := by
    intro h
    unfold interpolate
    rw [if_pos h]
  have hlt2 : ¬ (cleaned.n_original = 0 ∨ cleaned.mask_valid.all (· = true)) →
      (validPoints cleaned).length < 2 →
      interpolate cleaned = cleaned.intervals_ms := by
    intro h1 h2
    unfold interpolate
    rw [if_neg h1, if_pos h2]
  refine ⟨?_, ?_, ?_, ?_, ?_⟩
  · intro hB
    by_cases hA' : cleaned.n_original = 0 ∨ cleaned.mask_valid.all (· = true)
    · exact hid hA'
    · exact hlt2 hA' hB
  · intro i hi hm
    by_cases hA' : cleaned.n_original = 0 ∨ cleaned.mask_valid.all (· = true)
    · rw [hid hA']
    · by_cases hB : (validPoints cleaned).length < 2
      · rw [hlt2 hA' hB]
      · rw [interpolate_getD cleaned hA' hB i hi, if_pos hm]
  · intro i hi hm v1 v2 a ya b yb hsplit hax hxb
    have hB : ¬ (validPoints cleaned).length < 2 := by
      rw [hsplit]
      simp
      omega
    rw [interpolate_getD cleaned (hA i hi hm) hB i hi,
      if_neg (by rw [hm]; simp), hsplit]
    exact npInterp_bracket_append (i : ℚ) a b ya yb v1 v2
      (hsplit ▸ validPoints_pairwise cleaned) hax hxb
  · intro i hi hm a ya v2 hsplit h2 hia
    have hB : ¬ (validPoints cleaned).length < 2 := by omega
    rw [interpolate_getD cleaned (hA i hi hm) hB i hi,
      if_neg (by rw [hm]; simp), hsplit]
    exact npInterp_le_first (i : ℚ) a ya v2 hia
  · intro i hi hm v1 a ya hsplit h2 hai
    have hB : ¬ (validPoints cleaned).length < 2 := by omega
    rw [interpolate_getD cleaned (hA i hi hm) hB i hi,
      if_neg (by rw [hm]; simp), hsplit]
    exact npInterp_last (i : ℚ) v1 a ya
      (hsplit ▸ validPoints_pairwise cleaned) hai

/-- Witness for C8: the record for `[800, 999, 820]` with index 1
invalid gets `810` — the linear interpolant between its valid
neighbours. -/
theorem interpolate_linear_spec_witness :
    ([true, false, true] : List Bool).length =
      ([800, 999, 820] : List ℚ).length ∧
    (interpolate
      { timestamps := [0, 1, 2], intervals_ms := [800, 999, 820]
        mask_valid := [true, false, true], quality_ratio := 2 / 3
        n_original := 3, n_removed := 1 }).getD 1 0 =
      800 + (820 - 800) * (((1 : ℕ) : ℚ) - 0) / (2 - 0) := by
  refine ⟨rfl, ?_⟩
  exact (interpolate_linear_spec
    { timestamps := [0, 1, 2], intervals_ms := [800, 999, 820]
      mask_valid := [true, false, true], quality_ratio := 2 / 3
      n_original := 3, n_removed := 1 } rfl rfl).2.2.1 1 (by norm_num) rfl
    [] [] 0 800 2 820 (by decide) (by norm_num) (by norm_num)

end MindPulse
